import Mathlib

/-!
Verification development for the Spanner client example
(`examples/multiplexed_session.rs`) and the transaction-engine behaviour it
exercises. The engine itself (session provider, transaction executor, row
reader) is not part of the example source, so those components are modelled
from the specification; the example's transaction body, statement, mutation
and verification read are translated from the source file.
-/

namespace Spanner

/-- A typed cell value, the tagged-union value type for column contents. -/
inductive Value where
  | int64 (i : Int)
  | str (s : String)
  | null
deriving DecidableEq

/-- Machine-readable error codes carried by structured error responses. -/
inductive BaseError where
  | aborted
  | unavailable
  | notFound
  | typeMismatch
  | resourceExhausted
  | invalidArgument
  | userError
deriving DecidableEq

/-- Errors surfaced by the client: either a base backend/user error, or a
DeadlineExceeded wrapper keeping the last underlying retryable cause visible. -/
inductive SpanError where
  | base (e : BaseError)
  | deadlineExceeded (cause : Option BaseError)
deriving DecidableEq

/-- Modelled from the spec: error classification. Transient/retryable errors
(transaction aborted by backend, session unavailable) are retried by the
executor; everything else is terminal. -/
def retryable : SpanError → Bool
  | .base .aborted => true
  | .base .unavailable => true
  | _ => false

/-- A commit timestamp: (seconds, nanoseconds) pair assigned by the backend. -/
structure CommitTs where
  seconds : Int
  nanos : Int
deriving DecidableEq

/-- CommitResult: timestamp is present only on non-aborted success. -/
structure CommitResult where
  timestamp : Option CommitTs
deriving DecidableEq

/-- A result row: ordered cells with a name-to-value association. -/
def Row : Type := List (String × Value)

instance : DecidableEq Row := by
  unfold Row
  infer_instance

/-- Look a cell up by column name in the active result schema. -/
def rowLookup : Row → String → Option Value
  | [], _ => none
  | (n, v) :: rest, name => if n = name then some v else rowLookup rest name

/-- Typed column extraction at type String: fails with NotFound when the name
is absent from the active schema and with TypeMismatch when the stored column
type is not convertible to String. -/
def column_by_name_string (row : Row) (name : String) : Except SpanError String :=
  match rowLookup row name with
  | none => .error (.base .notFound)
  | some (.str s) => .ok s
  | some _ => .error (.base .typeMismatch)

/-- The backend database state: rows keyed by (table, primary-key value). -/
def DB : Type := List ((String × Value) × Row)

instance : DecidableEq DB := by
  unfold DB
  infer_instance

/-- Fetch the row stored under a (table, key) pair. -/
def getRow : DB → (String × Value) → Option Row
  | [], _ => none
  | (k, r) :: rest, key => if k = key then some r else getRow rest key

/-- Drop any row stored under the given key. -/
def removeRow : DB → (String × Value) → DB
  | [], _ => []
  | (k, r) :: rest, key =>
      if k = key then removeRow rest key else (k, r) :: removeRow rest key

/-- Store a row under a key, replacing any previous row for that key. -/
def upsertRow (db : DB) (key : String × Value) (r : Row) : DB :=
  (key, r) :: removeRow db key

/-- Mutation operations. -/
inductive MutOp where
  | insertOrUpdate
  | insert
  | update
  | delete
  | replace
deriving DecidableEq

/-- A buffered write operation targeting a table and column set, not sent to
the server until commit. -/
structure Mutation where
  op : MutOp
  table : String
  columns : List String
  values : List Value
deriving DecidableEq

/-- The `insert_or_update` mutation constructor used by the example. -/
def insert_or_update (table : String) (columns : List String) (values : List Value) :
    Mutation :=
  { op := .insertOrUpdate, table := table, columns := columns, values := values }

/-- Modelled from the spec: the backend applies one committed mutation,
keying the written row by its first (primary-key) value. -/
def applyMutation (db : DB) (m : Mutation) : DB :=
  match m.values with
  | [] => db
  | kv :: _ => upsertRow db (m.table, kv) (m.columns.zip m.values)

/-- Modelled from the spec: atomic commit applies the buffered mutations
in order as a single request. -/
def applyMutations (db : DB) (ms : List Mutation) : DB :=
  ms.foldl applyMutation db

/-- A Statement: an opaque query string plus named typed parameters. -/
structure Statement where
  text : String
  params : List (String × Value)
deriving DecidableEq

/-- Construct a statement from its text, as `Statement::new` does. -/
def Statement.new (text : String) : Statement :=
  { text := text, params := [] }

/-- `add_param` binds a named parameter (the example binds `id`). -/
def add_param (stmt : Statement) (name : String) (v : Value) : Statement :=
  { stmt with params := stmt.params ++ [(name, v)] }

/-- Project a stored row onto the named result columns, preserving order. -/
def projectRow (r : Row) (names : List String) : Row :=
  names.filterMap (fun n => (rowLookup r n).map (fun v => (n, v)))

/-- The statement text the example issues for both the transactional read and
the verification read. -/
def exampleQueryText : String :=
  "SELECT name_column FROM my_table WHERE id_column = @id"

/-- Modelled from the spec: backend execution of a Statement against a
snapshot. The query language is server-side and opaque to the client; the
model interprets the one statement shape the example uses — a point lookup of
`name_column` by `id_column` — and rejects anything else as InvalidArgument. -/
def evalStatement (db : DB) (stmt : Statement) : Except SpanError (List Row) :=
  if stmt.text = exampleQueryText then
    match rowLookup stmt.params "id" with
    | some idv =>
        match getRow db ("my_table", idv) with
        | some r => .ok [projectRow r ["name_column"]]
        | none => .ok []
    | none => .error (.base .invalidArgument)
  else .error (.base .invalidArgument)

/-- A Row Reader: a lazy, forward-only, finite sequence of result rows. -/
structure RowReader where
  rows : List Row
deriving DecidableEq

/-- `next()` on a Row Reader: yields the next row, or no value (not an
error) once the underlying result stream is exhausted. -/
def RowReader.next (rd : RowReader) : Except SpanError (Option Row × RowReader) :=
  match rd.rows with
  | [] => .ok (none, rd)
  | r :: rest => .ok (some r, ⟨rest⟩)

/-- Modelled from the spec: the TransactionContext passed to user logic —
a backend snapshot bound to one session for the attempt, plus the buffered
(pending) mutations accumulated client-side. -/
structure TransactionContext where
  snapshot : DB
  pending_mutations : List Mutation
  bound_session : Nat
deriving DecidableEq

/-- `buffer_write` appends the given mutations to `pending_mutations`;
purely local, no network effect. -/
def buffer_write (tx : TransactionContext) (ms : List Mutation) : TransactionContext :=
  { tx with pending_mutations := tx.pending_mutations ++ ms }

/-- `query` on the TransactionContext: executes the statement against the
attempt's backend snapshot, producing a Row Reader. Buffered writes are not
sent and are not visible to reads. -/
def TransactionContext.query (tx : TransactionContext) (stmt : Statement) :
    Except SpanError RowReader :=
  (evalStatement tx.snapshot stmt).map (fun rows => ⟨rows⟩)

/-- Fresh TransactionContext for one attempt: empty mutation buffer bound to
the attempt's snapshot. -/
def freshContext (db : DB) (sess : Nat) : TransactionContext :=
  { snapshot := db, pending_mutations := [], bound_session := sess }

/-- Outcome the backend gives one commit attempt: a commit timestamp, or a
structured error (Aborted for a concurrency conflict). -/
def CommitOutcome : Type := Except SpanError CommitTs

/-- Modelled from the spec: the Transaction Executor retry loop of
`read_write_transaction`. `dbAt k` is the backend snapshot the k-th attempt
reads (concurrent writers may change it between attempts); `sched k` is the
backend's response to the k-th commit. Retry is bounded by the attempt budget
`fuel`; exhausting it yields DeadlineExceeded keeping the last retryable
cause. Each attempt runs `body` on a fresh TransactionContext; an aborted
attempt's context and buffered mutations are discarded wholesale. On success
the buffered mutations are applied atomically and the final database state is
returned alongside (CommitResult, T). -/
def read_write_transaction {α : Type} (body : TransactionContext → Except SpanError (α × TransactionContext))
    (dbAt : Nat → DB) (sched : Nat → CommitOutcome) :
    Nat → Nat → Option BaseError → Except SpanError (CommitResult × α × DB)
  | 0, _, last => .error (.deadlineExceeded last)
  | fuel + 1, k, _last =>
    match body (freshContext (dbAt k) k) with
    | .error (.base b) =>
        if retryable (.base b) then
          read_write_transaction body dbAt sched fuel (k + 1) (some b)
        else .error (.base b)
    | .error e => .error e
    | .ok (t, tx) =>
        match sched k with
        | .error (.base b) =>
            if retryable (.base b) then
              read_write_transaction body dbAt sched fuel (k + 1) (some b)
            else .error (.base b)
        | .error e => .error e
        | .ok ts =>
            .ok ({ timestamp := some ts }, t, applyMutations (dbAt k) tx.pending_mutations)

/-- Rust's `str::parse::<i64>`: an optional leading `+` or `-` sign followed
by one or more ASCII digits, within the i64 range; anything else fails. -/
def parseI64 (s : String) : Option Int :=
  let cs := s.data
  let signed : Int × List Char :=
    match cs with
    | '-' :: rest => (-1, rest)
    | '+' :: rest => (1, rest)
    | _ => (1, cs)
  match signed with
  | (sign, digits) =>
    if digits = [] then none
    else if digits.all Char.isDigit then
      let n : Nat := digits.foldl (fun a c => a * 10 + (c.toNat - 48)) 0
      let v : Int := sign * (n : Int)
      if -(2 ^ 63) ≤ v ∧ v ≤ 2 ^ 63 - 1 then some v else none
    else none

/-- The example's statement: `SELECT name_column FROM my_table WHERE
id_column = @id` with `id` bound to the given key value. -/
def exampleStatement (idv : Value) : Statement :=
  add_param (Statement.new exampleQueryText) "id" idv

/-- Two's-complement wrap into the i64 range [-2^63, 2^63 - 1]: the effect of
Rust's release-mode `i64` addition when it overflows (a debug build would
panic at the overflow point instead of producing a value). -/
def i64Wrap (x : Int) : Int :=
  (x + 9223372036854775808) % 18446744073709551616 - 9223372036854775808

/-- The transaction body of the example (source lines 56–76): read
`name_column` for `id_column = 1` (defaulting to "0" when no row exists),
parse it as an i64 with `unwrap_or(0)`, add one as an i64 (wrapping on
overflow), and buffer an insert-or-update of the new value; returns the new
value. -/
def exampleBody (tx : TransactionContext) : Except SpanError (String × TransactionContext) :=
  match tx.query (exampleStatement (.int64 1)) with
  | .error e => .error e
  | .ok reader =>
    match reader.next with
    | .error e => .error e
    | .ok (rowOpt, _) =>
      match (match rowOpt with
             | some row => column_by_name_string row "name_column"
             | none => .ok "0") with
      | .error e => .error e
      | .ok currentVal =>
        let newValInt : Int := i64Wrap ((parseI64 currentVal).getD 0 + 1)
        let newVal : String := toString newValInt
        let m := insert_or_update "my_table" ["id_column", "name_column"]
          [.int64 1, .str newVal]
        .ok (newVal, buffer_write tx [m])

/-- The verification read of the example (source lines 88–96): a fresh
single-use (read-only) transaction queries `name_column` for `id_column = 1`
and extracts the value when a row comes back. -/
def verifyRead (db : DB) : Except SpanError (Option String) :=
  match (freshContext db 0).query (exampleStatement (.int64 1)) with
  | .error e => .error e
  | .ok reader =>
    match reader.next with
    | .error e => .error e
    | .ok (none, _) => .ok none
    | .ok (some row, _) => (column_by_name_string row "name_column").map some

/-- A mutation targets the row addressed by (its table, its first value). -/
def touches (m : Mutation) (key : String × Value) : Prop :=
  m.table = key.1 ∧ m.values.head? = some key.2

instance (m : Mutation) (key : String × Value) : Decidable (touches m key) := by
  unfold touches
  infer_instance

/-- The kind of a SessionHandle: pooled (dedicated) or multiplexed. -/
inductive SessionKind where
  | pooled
  | multiplexed
deriving DecidableEq

/-- Modelled from the spec: the session-related configuration the provider
reads at startup — multiplexed sessions enabled at all, multiplexed sessions
enabled for the read-write path, and the dedicated-pool size bound. -/
structure SessionConfig where
  muxEnabled : Bool
  muxRW : Bool
  poolMax : Nat
deriving DecidableEq

/-- Modelled from the spec: provider state — live dedicated sessions, how
many of them are checked out, and whether the single cached multiplexed
session has been lazily created. -/
structure SessionState where
  live : Nat
  inUse : Nat
  muxLive : Bool
deriving DecidableEq

/-- Provider state before any session has been created. -/
def initSessionState : SessionState := { live := 0, inUse := 0, muxLive := false }

/-- Multiplexing eligibility: read-only is eligible whenever multiplexing is
enabled; read-write additionally requires the separate read-write flag. -/
def muxEligible (cfg : SessionConfig) (forRW : Bool) : Bool :=
  if forRW then cfg.muxEnabled && cfg.muxRW else cfg.muxEnabled

/-- Modelled from the spec: `acquire`. Eligible requests share the single
lazily-created multiplexed session; otherwise a dedicated session is reused
from the pool or allocated up to `poolMax`, and an exhausted pool fails with
ResourceExhausted after the wait timeout. -/
def acquire (cfg : SessionConfig) (forRW : Bool) (st : SessionState) :
    Except SpanError (SessionKind × SessionState) :=
  if muxEligible cfg forRW then
    .ok (.multiplexed, { st with muxLive := true })
  else if st.inUse < st.live then
    .ok (.pooled, { st with inUse := st.inUse + 1 })
  else if st.live < cfg.poolMax then
    .ok (.pooled, { live := st.live + 1, inUse := st.inUse + 1, muxLive := st.muxLive })
  else .error (.base .resourceExhausted)

/-- Modelled from the spec: `release` returns a pooled session to the pool
for reuse and is a no-op for multiplexed handles. -/
def release (kind : SessionKind) (st : SessionState) : SessionState :=
  match kind with
  | .multiplexed => st
  | .pooled => { st with inUse := st.inUse - 1 }

/-- `session_count`: live dedicated sessions plus one for the active
multiplexed session when it exists. -/
def session_count (st : SessionState) : Nat :=
  st.live + (if st.muxLive then 1 else 0)

/-- One session-provider operation issued by some concurrent transaction. -/
inductive SessionOp where
  | acq (forRW : Bool)
  | rel (kind : SessionKind)
deriving DecidableEq

/-- Whether an operation is an acquisition. -/
def SessionOp.isAcq : SessionOp → Bool
  | .acq _ => true
  | .rel _ => false

/-- Run one provider operation; a failed acquisition creates no session. -/
def stepSession (cfg : SessionConfig) (st : SessionState) (op : SessionOp) : SessionState :=
  match op with
  | .acq rw =>
      match acquire cfg rw st with
      | .ok (_, st') => st'
      | .error _ => st
  | .rel k => release k st

/-- Run a sequence of provider operations from a starting state. -/
def runSessionOps (cfg : SessionConfig) (ops : List SessionOp) (st : SessionState) :
    SessionState :=
  ops.foldl (stepSession cfg) st

/-- Process-wide mutable environment: name-to-value bindings. -/
def EnvState : Type := List (String × String)

instance : DecidableEq EnvState := by
  unfold EnvState
  infer_instance

/-- Read an environment variable. -/
def envGet : EnvState → String → Option String
  | [], _ => none
  | (k, v) :: rest, name => if k = name then some v else envGet rest name

/-- `env::set_var`: mutate the process-wide environment. -/
def envSet (env : EnvState) (name value : String) : EnvState :=
  (name, value) :: env

/-- The environment variable enabling multiplexed sessions. -/
def muxVar : String := "GOOGLE_CLOUD_SPANNER_MULTIPLEXED_SESSIONS"

/-- The environment variable enabling multiplexed sessions for read-write. -/
def muxRWVar : String := "GOOGLE_CLOUD_SPANNER_MULTIPLEXED_SESSIONS_FOR_RW"

/-- The example's environment setup (source lines 33–34): set both
multiplexing variables to "true" before constructing the client. -/
def exampleEnvSetup (env : EnvState) : EnvState :=
  envSet (envSet env muxVar "true") muxRWVar "true"

/-- ClientConfig as the example constructs it: `ClientConfig::default()`
followed by `.with_auth()`. It carries no multiplexing fields. -/
structure ClientConfig where
  hasAuth : Bool
deriving DecidableEq

/-- `ClientConfig::default()`. -/
def ClientConfig.default : ClientConfig := { hasAuth := false }

/-- `.with_auth()`: resolve Application Default Credentials. -/
def ClientConfig.with_auth (cfg : ClientConfig) : ClientConfig :=
  { cfg with hasAuth := true }

/-- A constructed Client: its resolved multiplexing enablement and the
config it was built from. -/
structure Client where
  muxEnabled : Bool
  muxRW : Bool
  config : ClientConfig
deriving DecidableEq

/-- Modelled from the spec: `Client::new` resolves multiplexed-session
enablement once, at construction, by reading the process-wide environment
variables (the spec's design note names these global mutable flags as the
mechanism the re-architecture would replace). -/
def Client.new (env : EnvState) (cfg : ClientConfig) : Client :=
  { muxEnabled := envGet env muxVar == some "true"
  , muxRW := envGet env muxRWVar == some "true"
  , config := cfg }

/-- The backend state holding one row in `my_table` at `id_column = 1` whose
`name_column` holds the string `s`. -/
def exampleRowDb (s : String) : DB :=
  [(("my_table", .int64 1), [("id_column", .int64 1), ("name_column", .str s)])]

/-- The insert-or-update mutation the example body buffers for a new value. -/
def exampleMutation (v : String) : Mutation :=
  insert_or_update "my_table" ["id_column", "name_column"] [.int64 1, .str v]

/-! ### Row-store lemmas -/

theorem getRow_upsertRow_self (db : DB) (key : String × Value) (r : Row) :
    getRow (upsertRow db key r) key = some r := by
  simp [upsertRow, getRow]

theorem getRow_removeRow_ne (db : DB) (key key' : String × Value) (h : key' ≠ key) :
    getRow (removeRow db key) key' = getRow db key' := by
  induction db with
  | nil => rfl
  | cons p rest ih =>
    obtain ⟨k, r⟩ := p
    by_cases hk : k = key
    · subst hk
      simp only [removeRow, getRow, if_true]
      rw [ih, if_neg (fun hkk => h hkk.symm)]
    · simp only [removeRow, if_neg hk, getRow]
      by_cases hk' : k = key'
      · rw [if_pos hk', if_pos hk']
      · rw [if_neg hk', if_neg hk', ih]

theorem getRow_upsertRow_ne (db : DB) (key key' : String × Value) (r : Row)
    (h : key' ≠ key) :
    getRow (upsertRow db key r) key' = getRow db key' := by
  simp only [upsertRow, getRow]
  rw [if_neg (fun hkk => h hkk.symm)]
  exact getRow_removeRow_ne db key key' h

theorem getRow_applyMutation_untouched (db : DB) (m : Mutation) (key : String × Value)
    (h : ¬ touches m key) :
    getRow (applyMutation db m) key = getRow db key := by
  cases hv : m.values with
  | nil => simp [applyMutation, hv]
  | cons kv rest =>
    simp only [applyMutation, hv]
    apply getRow_upsertRow_ne
    intro hkey
    refine h ⟨?_, ?_⟩
    · rw [hkey]
    · rw [hv, hkey]
      rfl

theorem getRow_applyMutations_untouched (ms : List Mutation) (key : String × Value)
    (h : ∀ m' ∈ ms, ¬ touches m' key) :
    ∀ db, getRow (applyMutations db ms) key = getRow db key := by
  induction ms with
  | nil => intro db; rfl
  | cons m rest ih =>
    intro db
    have hstep : applyMutations db (m :: rest) = applyMutations (applyMutation db m) rest := rfl
    rw [hstep, ih (fun m' hm' => h m' (List.mem_cons_of_mem m hm')),
      getRow_applyMutation_untouched db m key (h m (List.mem_cons_self m rest))]

theorem applyMutations_append (db : DB) (l₁ l₂ : List Mutation) :
    applyMutations db (l₁ ++ l₂) = applyMutations (applyMutations db l₁) l₂ :=
  List.foldl_append applyMutation db l₁ l₂

theorem getRow_applyMutation_touched (db : DB) (m : Mutation) (kv : Value)
    (hkv : m.values.head? = some kv) :
    getRow (applyMutation db m) (m.table, kv) = some (m.columns.zip m.values) := by
  cases hv : m.values with
  | nil => rw [hv] at hkv; cases hkv
  | cons v rest =>
    rw [hv] at hkv
    simp only [List.head?_cons, Option.some.injEq] at hkv
    subst hkv
    simp only [applyMutation, hv]
    exact getRow_upsertRow_self db (m.table, v) (m.columns.zip (v :: rest))

/-- The committed row for the last mutation targeting its key in the buffer:
later mutations in the same commit do not touch it, so the committed database
stores exactly the zipped columns/values that were buffered. -/
theorem getRow_applyMutations_last (db : DB) (l₁ l₂ : List Mutation) (m : Mutation)
    (kv : Value) (hkv : m.values.head? = some kv)
    (hl₂ : ∀ m' ∈ l₂, ¬ touches m' (m.table, kv)) :
    getRow (applyMutations db (l₁ ++ m :: l₂)) (m.table, kv) =
      some (m.columns.zip m.values) := by
  rw [applyMutations_append]
  have hstep : applyMutations (applyMutations db l₁) (m :: l₂) =
      applyMutations (applyMutation (applyMutations db l₁) m) l₂ := rfl
  rw [hstep, getRow_applyMutations_untouched l₂ (m.table, kv) hl₂,
    getRow_applyMutation_touched _ m kv hkv]

/-! ### Executor lemmas -/

/-- A successful attempt is terminal: the executor returns the commit result
and applies exactly the attempt's buffered mutations to its snapshot. -/
theorem rw_success {α : Type}
    (body : TransactionContext → Except SpanError (α × TransactionContext))
    (dbAt : Nat → DB) (sched : Nat → CommitOutcome) (f k : Nat) (last : Option BaseError)
    (t : α) (tx : TransactionContext) (ts : CommitTs)
    (hbody : body (freshContext (dbAt k) k) = .ok (t, tx))
    (hsched : sched k = .ok ts) :
    read_write_transaction body dbAt sched (f + 1) k last =
      .ok ({ timestamp := some ts }, t, applyMutations (dbAt k) tx.pending_mutations) := by
  simp [read_write_transaction, hbody, hsched]

/-- Skipping a block of aborted attempts: the executor's result from a run of
`k` consecutive aborted attempts is the result of the continuation, with the
aborted contexts and buffered mutations discarded. -/
theorem rw_skip {α : Type}
    (body : TransactionContext → Except SpanError (α × TransactionContext))
    (dbAt : Nat → DB) (sched : Nat → CommitOutcome) :
    ∀ (k fuel start : Nat) (last : Option BaseError), k ≤ fuel →
    (∀ j, j < k →
      (∃ t tx, body (freshContext (dbAt (start + j)) (start + j)) = .ok (t, tx)) ∧
        sched (start + j) = .error (.base .aborted)) →
    ∃ last', read_write_transaction body dbAt sched fuel start last =
      read_write_transaction body dbAt sched (fuel - k) (start + k) last' := by
  intro k
  induction k with
  | zero =>
    intro fuel start last _ _
    exact ⟨last, by simp⟩
  | succ k ih =>
    intro fuel start last hk h
    cases fuel with
    | zero => omega
    | succ f =>
      obtain ⟨⟨t, tx, hbody⟩, hsched⟩ := h 0 (Nat.succ_pos k)
      rw [Nat.add_zero] at hbody hsched
      have step : read_write_transaction body dbAt sched (f + 1) start last =
          read_write_transaction body dbAt sched f (start + 1) (some .aborted) := by
        simp [read_write_transaction, hbody, hsched, retryable]
      obtain ⟨last', hrest⟩ := ih f (start + 1) (some .aborted)
        (Nat.succ_le_succ_iff.mp hk)
        (fun j hj => by
          have hsh := h (j + 1) (Nat.succ_lt_succ hj)
          rwa [show start + (j + 1) = start + 1 + j by omega] at hsh)
      refine ⟨last', ?_⟩
      have e1 : f + 1 - (k + 1) = f - k := by omega
      have e2 : start + (k + 1) = start + 1 + k := by omega
      rw [e1, e2, step]
      exact hrest

/-- All-aborted runs surface DeadlineExceeded with the last cause visible. -/
theorem rw_all_aborted {α : Type}
    (body : TransactionContext → Except SpanError (α × TransactionContext))
    (dbAt : Nat → DB) (sched : Nat → CommitOutcome)
    (hbody : ∀ j, ∃ t tx, body (freshContext (dbAt j) j) = .ok (t, tx))
    (hsched : ∀ j, sched j = .error (.base .aborted)) :
    ∀ (n k : Nat) (last : Option BaseError),
      read_write_transaction body dbAt sched (n + 1) k last =
        .error (.deadlineExceeded (some .aborted)) := by
  intro n
  induction n with
  | zero =>
    intro k last
    obtain ⟨t, tx, hb⟩ := hbody k
    simp [read_write_transaction, hb, hsched k, retryable]
  | succ n ih =>
    intro k last
    obtain ⟨t, tx, hb⟩ := hbody k
    have step : read_write_transaction body dbAt sched (n + 1 + 1) k last =
        read_write_transaction body dbAt sched (n + 1) (k + 1) (some .aborted) := by
      simp [read_write_transaction, hb, hsched k, retryable]
    rw [step]
    exact ih (k + 1) (some .aborted)

/-! ### Claim theorems -/

/-- C1. If the backend aborts the first `k` attempts of
`read_write_transaction` (each of which ran the body successfully) and the
(k+1)-st attempt commits, then the executor's result is exactly the body
executed once against the post-retry snapshot `dbAt k`: the committed
database is `dbAt k` with only the final attempt's buffered mutations
applied, so no mutation buffered by a discarded attempt is ever applied. -/
theorem c1_aborted_attempt_mutations_discarded {α : Type}
    (body : TransactionContext → Except SpanError (α × TransactionContext))
    (dbAt : Nat → DB) (sched : Nat → CommitOutcome) (k fuel : Nat)
    (t : α) (tx : TransactionContext) (ts : CommitTs)
    (hfuel : k < fuel)
    (habort : ∀ j, j < k →
      (∃ t' tx', body (freshContext (dbAt j) j) = .ok (t', tx')) ∧
        sched j = .error (.base .aborted))
    (hbody : body (freshContext (dbAt k) k) = .ok (t, tx))
    (hsched : sched k = .ok ts) :
    read_write_transaction body dbAt sched fuel 0 none =
      .ok ({ timestamp := some ts }, t, applyMutations (dbAt k) tx.pending_mutations) := by
  obtain ⟨last', hskip⟩ := rw_skip body dbAt sched k fuel 0 none (Nat.le_of_lt hfuel)
    (fun j hj => by simpa using habort j hj)
  obtain ⟨m, hm⟩ : ∃ m, fuel - k = m + 1 :=
    ⟨fuel - k - 1, by omega⟩
  rw [hskip, Nat.zero_add, hm]
  exact rw_success body dbAt sched m k last' t tx ts hbody hsched

/-- Witness for C1: with a backend that aborts attempt 0 and commits
attempt 1, the example body's result is committed exactly once against the
attempt-1 snapshot and the discarded attempt's mutation is not applied. -/
theorem c1_witness :
    read_write_transaction exampleBody (fun _ => [])
      (fun j => if j = 0 then .error (.base .aborted) else .ok ⟨10, 20⟩) 3 0 none =
      .ok ({ timestamp := some ⟨10, 20⟩ }, "1",
        applyMutations []
          (buffer_write (freshContext [] 1)
            [insert_or_update "my_table" ["id_column", "name_column"]
              [.int64 1, .str "1"]]).pending_mutations) := by
  refine c1_aborted_attempt_mutations_discarded exampleBody (fun _ => [])
    (fun j => if j = 0 then .error (.base .aborted) else .ok ⟨10, 20⟩) 1 3 "1"
    (buffer_write (freshContext [] 1)
      [insert_or_update "my_table" ["id_column", "name_column"] [.int64 1, .str "1"]])
    ⟨10, 20⟩ (by omega) ?_ rfl rfl
  intro j hj
  have hj0 : j = 0 := by omega
  subst hj0
  exact ⟨⟨"1", buffer_write (freshContext [] 0)
    [insert_or_update "my_table" ["id_column", "name_column"] [.int64 1, .str "1"]], rfl⟩, rfl⟩

/-- C2. Every call to `read_write_transaction` has exactly one terminal
outcome, fixed by its result value: either a success carrying (CommitResult,
T) — with the final database state in the model — or a single terminal error,
and that error is never a retryable one; in particular the caller never
observes an Aborted error that the executor retried internally. -/
theorem c2_single_terminal_outcome {α : Type}
    (body : TransactionContext → Except SpanError (α × TransactionContext))
    (dbAt : Nat → DB) (sched : Nat → CommitOutcome) (fuel k : Nat)
    (last : Option BaseError) :
    (∃ p, read_write_transaction body dbAt sched fuel k last = .ok p) ∨
    (∃ e, read_write_transaction body dbAt sched fuel k last = .error e ∧
      retryable e = false ∧ e ≠ .base .aborted) := by
  induction fuel generalizing k last with
  | zero =>
    right
    exact ⟨.deadlineExceeded last, rfl, rfl, by simp⟩
  | succ f ih =>
    rcases hb : body (freshContext (dbAt k) k) with e | p
    · rcases e with b | c
      · by_cases hr : retryable (.base b) = true
        · have step : read_write_transaction body dbAt sched (f + 1) k last =
              read_write_transaction body dbAt sched f (k + 1) (some b) := by
            simp [read_write_transaction, hb, hr]
          rw [step]
          exact ih (k + 1) (some b)
        · right
          refine ⟨.base b, by simp [read_write_transaction, hb, hr], by simpa using hr, ?_⟩
          intro heq
          rw [heq] at hr
          exact hr rfl
      · right
        exact ⟨.deadlineExceeded c, by simp [read_write_transaction, hb], rfl, by simp⟩
    · obtain ⟨t, tx⟩ := p
      rcases hs : sched k with e | ts
      · rcases e with b | c
        · by_cases hr : retryable (.base b) = true
          · have step : read_write_transaction body dbAt sched (f + 1) k last =
                read_write_transaction body dbAt sched f (k + 1) (some b) := by
              simp [read_write_transaction, hb, hs, hr]
            rw [step]
            exact ih (k + 1) (some b)
          · right
            refine ⟨.base b, by simp [read_write_transaction, hb, hs, hr], by simpa using hr, ?_⟩
            intro heq
            rw [heq] at hr
            exact hr rfl
        · right
          exact ⟨.deadlineExceeded c, by simp [read_write_transaction, hb, hs], rfl, by simp⟩
      · left
        exact ⟨({ timestamp := some ts }, t, applyMutations (dbAt k) tx.pending_mutations),
          rw_success body dbAt sched f k last t tx ts hb hs⟩

/-- C7. The retry loop is bounded by the attempt budget: against a backend
that aborts every commit (with the body succeeding every attempt), the
executor terminates and returns a DeadlineExceeded error that keeps the last
underlying retryable cause — the abort — visible. -/
theorem c7_retry_bounded_deadline_exceeded {α : Type}
    (body : TransactionContext → Except SpanError (α × TransactionContext))
    (dbAt : Nat → DB) (sched : Nat → CommitOutcome) (fuel : Nat)
    (hfuel : 0 < fuel)
    (hbody : ∀ j, ∃ t tx, body (freshContext (dbAt j) j) = .ok (t, tx))
    (hsched : ∀ j, sched j = .error (.base .aborted)) :
    read_write_transaction body dbAt sched fuel 0 none =
      .error (.deadlineExceeded (some .aborted)) := by
  obtain ⟨n, hn⟩ : ∃ n, fuel = n + 1 := ⟨fuel - 1, by omega⟩
  rw [hn]
  exact rw_all_aborted body dbAt sched hbody hsched n 0 none

/-- Witness for C7: the example body against an always-aborting backend with
an attempt budget of 3 yields DeadlineExceeded carrying the aborted cause. -/
theorem c7_witness :
    read_write_transaction exampleBody (fun _ => [])
      (fun _ => .error (.base .aborted)) 3 0 none =
      .error (.deadlineExceeded (some .aborted)) := by
  refine c7_retry_bounded_deadline_exceeded exampleBody (fun _ => [])
    (fun _ => .error (.base .aborted)) 3 (by omega) ?_ (fun _ => rfl)
  intro j
  exact ⟨"1", buffer_write (freshContext [] j)
    [insert_or_update "my_table" ["id_column", "name_column"] [.int64 1, .str "1"]], rfl⟩

/-- C3. Round-trip: a mutation staged via `buffer_write` inside a read-write
transaction whose commit succeeds (here, the last buffered mutation targeting
its row) is read back by a subsequent query in a new transaction — a fresh
context over the committed database — with column values identical to those
buffered. -/
theorem c3_buffered_mutation_roundtrip
    (dbAt : Nat → DB) (sched : Nat → CommitOutcome)
    (ms l₁ l₂ : List Mutation) (m : Mutation) (kv : Value) (ts : CommitTs) (fuel : Nat)
    (hfuel : 0 < fuel)
    (hms : ms = l₁ ++ m :: l₂)
    (hkv : m.values.head? = some kv)
    (hl₂ : ∀ m' ∈ l₂, ¬ touches m' (m.table, kv))
    (hsched : sched 0 = .ok ts) :
    read_write_transaction (fun tx => Except.ok ((), buffer_write tx ms)) dbAt sched
        fuel 0 none =
      .ok ({ timestamp := some ts }, (), applyMutations (dbAt 0) ms) ∧
    getRow (freshContext (applyMutations (dbAt 0) ms) 0).snapshot (m.table, kv) =
      some (m.columns.zip m.values) := by
  constructor
  · obtain ⟨f, hf⟩ : ∃ f, fuel = f + 1 := ⟨fuel - 1, by omega⟩
    rw [hf]
    have h := rw_success (fun tx => Except.ok ((), buffer_write tx ms)) dbAt sched f 0
      none () (buffer_write (freshContext (dbAt 0) 0) ms) ts rfl hsched
    simpa [buffer_write, freshContext] using h
  · rw [hms]
    exact getRow_applyMutations_last (dbAt 0) l₁ l₂ m kv hkv hl₂

/-- Witness for C3: committing a buffer of two mutations on different rows
reads back the second row's buffered values in a fresh context. -/
theorem c3_witness :
    read_write_transaction
      (fun tx => Except.ok ((), buffer_write tx [exampleMutation "x", exampleMutation "7"]))
      (fun _ => []) (fun _ => .ok ⟨5, 6⟩) 1 0 none =
      .ok ({ timestamp := some ⟨5, 6⟩ }, (),
        applyMutations [] [exampleMutation "x", exampleMutation "7"]) ∧
    getRow (freshContext (applyMutations [] [exampleMutation "x", exampleMutation "7"]) 0).snapshot
        ("my_table", .int64 1) =
      some (["id_column", "name_column"].zip [.int64 1, .str "7"]) := by
  refine c3_buffered_mutation_roundtrip (fun _ => []) (fun _ => .ok ⟨5, 6⟩)
    [exampleMutation "x", exampleMutation "7"] [exampleMutation "x"] []
    (exampleMutation "7") (.int64 1) ⟨5, 6⟩ 1 (by omega) rfl rfl ?_ rfl
  intro m' hm'
  cases hm'

/-- C4. The example scenario: with no row at `id_column = 1`, the body
computes "1" and buffers an insert-or-update; the successful commit returns a
CommitResult whose timestamp is populated, and the subsequent verification
read of `id_column = 1` returns "1". -/
theorem c4_example_scenario (ts : CommitTs) (fuel : Nat) :
    read_write_transaction exampleBody (fun _ => []) (fun _ => .ok ts) (fuel + 1) 0 none =
      .ok ({ timestamp := some ts }, "1", applyMutations [] [exampleMutation "1"]) ∧
    ({ timestamp := some ts } : CommitResult).timestamp ≠ none ∧
    verifyRead (applyMutations [] [exampleMutation "1"]) = .ok (some "1") :=
  ⟨rfl, by simp, rfl⟩

/-- C5. A query whose result set is empty yields a Row Reader whose `next`
returns no value, not an error; `column_by_name` fails with NotFound when the
requested name is absent from the active schema and with TypeMismatch when
the stored value is not convertible to the requested (String) type. -/
theorem c5_empty_result_and_decode_errors :
    (∀ (db : DB) (idv : Value), getRow db ("my_table", idv) = none →
      ∃ rd, (freshContext db 0).query (exampleStatement idv) = .ok rd ∧
        rd.next = .ok (none, rd)) ∧
    (∀ (row : Row) (name : String), rowLookup row name = none →
      column_by_name_string row name = .error (.base .notFound)) ∧
    (∀ (row : Row) (name : String) (v : Value), rowLookup row name = some v →
      (∀ s, v ≠ Value.str s) →
      column_by_name_string row name = .error (.base .typeMismatch)) := by
  refine ⟨?_, ?_, ?_⟩
  · intro db idv h
    refine ⟨⟨[]⟩, ?_, rfl⟩
    simp [TransactionContext.query, evalStatement, exampleStatement, add_param,
      Statement.new, rowLookup, freshContext, h, Except.map]
  · intro row name h
    simp [column_by_name_string, h]
  · intro row name v h hv
    cases v with
    | int64 i => simp [column_by_name_string, h]
    | str s => exact absurd rfl (hv s)
    | null => simp [column_by_name_string, h]

/-- Witness for C5: the empty database yields an empty reader whose `next`
is `none`; decoding an absent column fails NotFound; decoding an integer
column as String fails TypeMismatch. -/
theorem c5_witness :
    (∃ rd, (freshContext [] 0).query (exampleStatement (.int64 1)) = .ok rd ∧
      rd.next = .ok (none, rd)) ∧
    column_by_name_string [] "name_column" = .error (.base .notFound) ∧
    column_by_name_string [("name_column", .int64 5)] "name_column" =
      .error (.base .typeMismatch) :=
  ⟨c5_empty_result_and_decode_errors.1 [] (.int64 1) rfl,
   c5_empty_result_and_decode_errors.2.1 [] "name_column" rfl,
   c5_empty_result_and_decode_errors.2.2 [("name_column", .int64 5)] "name_column"
     (.int64 5) rfl (fun s h => by cases h)⟩

/-- C6. `buffer_write` only appends to `pending_mutations` — the snapshot and
session binding are untouched, and no network effect occurs — and the
buffered writes are invisible to every query issued in the same attempt:
`query` reads the backend snapshot only. -/
theorem c6_buffer_write_local_and_invisible (tx : TransactionContext) (ms : List Mutation) :
    (buffer_write tx ms).pending_mutations = tx.pending_mutations ++ ms ∧
    (buffer_write tx ms).snapshot = tx.snapshot ∧
    (buffer_write tx ms).bound_session = tx.bound_session ∧
    ∀ stmt, (buffer_write tx ms).query stmt = tx.query stmt :=
  ⟨rfl, rfl, rfl, fun _ => rfl⟩

/-- Under a multiplexed-only configuration the provider never creates a
dedicated session, and any acquisition activates the single cached
multiplexed session. -/
theorem muxOnly_preserved (cfg : SessionConfig) (h1 : cfg.muxEnabled = true)
    (h2 : cfg.muxRW = true) :
    ∀ (ops : List SessionOp) (st : SessionState), st.live = 0 → st.inUse = 0 →
      (runSessionOps cfg ops st).live = 0 ∧ (runSessionOps cfg ops st).inUse = 0 ∧
      (runSessionOps cfg ops st).muxLive = (st.muxLive || ops.any SessionOp.isAcq) := by
  intro ops
  induction ops with
  | nil =>
    intro st hl hu
    exact ⟨hl, hu, by simp [runSessionOps]⟩
  | cons op rest ih =>
    intro st hl hu
    have hrun : runSessionOps cfg (op :: rest) st =
        runSessionOps cfg rest (stepSession cfg st op) := rfl
    cases op with
    | acq forRW =>
      have helig : muxEligible cfg forRW = true := by
        cases forRW <;> simp [muxEligible, h1, h2]
      have hstep : stepSession cfg st (.acq forRW) = { st with muxLive := true } := by
        simp [stepSession, acquire, helig]
      rw [hrun, hstep]
      obtain ⟨a, b, c⟩ := ih { st with muxLive := true } hl hu
      refine ⟨a, b, ?_⟩
      rw [c]
      simp [SessionOp.isAcq]
    | rel kind =>
      cases kind with
      | multiplexed =>
        have hstep : stepSession cfg st (.rel .multiplexed) = st := rfl
        rw [hrun, hstep]
        obtain ⟨a, b, c⟩ := ih st hl hu
        refine ⟨a, b, ?_⟩
        rw [c]
        simp [SessionOp.isAcq]
      | pooled =>
        have hstep : stepSession cfg st (.rel .pooled) =
            { st with inUse := st.inUse - 1 } := rfl
        rw [hrun, hstep]
        obtain ⟨a, b, c⟩ := ih { st with inUse := st.inUse - 1 } hl (by simp [hu])
        refine ⟨a, b, ?_⟩
        rw [c]
        simp [SessionOp.isAcq]

/-- With multiplexing disabled, the pool never grows past its configured
maximum and no multiplexed session is ever created. -/
theorem dedicated_bounded (cfg : SessionConfig) (hd : cfg.muxEnabled = false) :
    ∀ (ops : List SessionOp) (st : SessionState), st.live ≤ cfg.poolMax →
      st.muxLive = false →
      (runSessionOps cfg ops st).live ≤ cfg.poolMax ∧
      (runSessionOps cfg ops st).muxLive = false := by
  intro ops
  induction ops with
  | nil =>
    intro st hl hm
    exact ⟨hl, hm⟩
  | cons op rest ih =>
    intro st hl hm
    have hrun : runSessionOps cfg (op :: rest) st =
        runSessionOps cfg rest (stepSession cfg st op) := rfl
    rw [hrun]
    cases op with
    | acq forRW =>
      have helig : muxEligible cfg forRW = false := by
        cases forRW <;> simp [muxEligible, hd]
      by_cases hiu : st.inUse < st.live
      · have hstep : stepSession cfg st (.acq forRW) =
            { st with inUse := st.inUse + 1 } := by
          simp [stepSession, acquire, helig, hiu]
        rw [hstep]
        exact ih _ hl hm
      · by_cases hlv : st.live < cfg.poolMax
        · have hstep : stepSession cfg st (.acq forRW) =
              { live := st.live + 1, inUse := st.inUse + 1, muxLive := st.muxLive } := by
            simp [stepSession, acquire, helig, hiu, hlv]
          rw [hstep]
          exact ih _ hlv (by simp [hm])
        · have hstep : stepSession cfg st (.acq forRW) = st := by
            simp [stepSession, acquire, helig, hiu, hlv]
          rw [hstep]
          exact ih _ hl hm
    | rel kind =>
      cases kind with
      | multiplexed => exact ih _ hl hm
      | pooled => exact ih _ hl hm

/-- C8. For a multiplexed-only configuration, `session_count` is exactly 1
after any operation sequence containing at least one acquisition, no matter
how many concurrent transactions acquire or release; for a dedicated-session
configuration the count never exceeds the configured pool maximum. -/
theorem c8_session_count_multiplexed_vs_pooled
    (cfgM cfgD : SessionConfig) (opsM opsD : List SessionOp)
    (hM1 : cfgM.muxEnabled = true) (hM2 : cfgM.muxRW = true)
    (hAny : opsM.any SessionOp.isAcq = true)
    (hD : cfgD.muxEnabled = false) :
    session_count (runSessionOps cfgM opsM initSessionState) = 1 ∧
    session_count (runSessionOps cfgD opsD initSessionState) ≤ cfgD.poolMax := by
  constructor
  · obtain ⟨a, _, c⟩ := muxOnly_preserved cfgM hM1 hM2 opsM initSessionState rfl rfl
    rw [session_count, a, c]
    simp [initSessionState, hAny]
  · obtain ⟨a, b⟩ := dedicated_bounded cfgD hD opsD initSessionState
      (by simp [initSessionState]) rfl
    rw [session_count, b]
    simpa using a

/-- Witness for C8: three concurrent multiplexed acquisitions leave the count
at exactly 1; four acquisitions against a dedicated pool of 2 stay within 2. -/
theorem c8_witness :
    session_count (runSessionOps ⟨true, true, 5⟩
      [.acq true, .acq false, .rel .multiplexed] initSessionState) = 1 ∧
    session_count (runSessionOps ⟨false, false, 2⟩
      [.acq true, .acq true, .acq true, .acq false] initSessionState) ≤ 2 :=
  c8_session_count_multiplexed_vs_pooled ⟨true, true, 5⟩ ⟨false, false, 2⟩
    [.acq true, .acq false, .rel .multiplexed]
    [.acq true, .acq true, .acq true, .acq false] rfl rfl rfl rfl

/-- Counterexample to C9 as stated: two clients constructed from the
identical ClientConfig value observe different multiplexed-session
enablement, because enablement is read from the process-wide mutable
environment (which the example mutates via `env::set_var`) rather than from
explicit immutable fields of the configuration object. -/
theorem c9_counterexample :
    (Client.new [] (ClientConfig.default.with_auth)).muxRW = false ∧
    (Client.new (exampleEnvSetup []) (ClientConfig.default.with_auth)).muxRW = true ∧
    (Client.new [] (ClientConfig.default.with_auth)).config =
      (Client.new (exampleEnvSetup []) (ClientConfig.default.with_auth)).config :=
  ⟨rfl, rfl, rfl⟩

/-- C9 (amended). Multiplexed-session enablement is resolved once at Client
construction by reading the process-wide environment variables — not from
fields of the ClientConfig object, which is passed through unchanged; after
the example's `env::set_var` setup both enablement fields resolve to true.
Because the toggles are process-wide and mutable, clients constructed under
different environment states can differ even with identical configs. -/
theorem c9_env_resolved_once_at_construction (env : EnvState) (cfg : ClientConfig) :
    (Client.new env cfg).muxEnabled = (envGet env muxVar == some "true") ∧
    (Client.new env cfg).muxRW = (envGet env muxRWVar == some "true") ∧
    (Client.new (exampleEnvSetup env) cfg).muxEnabled = true ∧
    (Client.new (exampleEnvSetup env) cfg).muxRW = true ∧
    (Client.new (exampleEnvSetup env) cfg).config = cfg :=
  ⟨rfl, rfl, rfl, rfl, rfl⟩

/-- C10. The example body's arithmetic step is total and never fails: the new
value is always `to_string` of the i64 sum `parse_i64(current) + 1` — with
an unparseable current value treated as 0 and the addition carrying Rust's
release-mode i64 wrap-on-overflow semantics — so every stored `name_column`
string that does not parse as a base-10 i64, and the no-row case, makes the
body buffer the string "1" and return success. -/
theorem c10_example_arithmetic_total :
    (∀ s : String,
      exampleBody (freshContext (exampleRowDb s) 0) =
        .ok (toString (i64Wrap ((parseI64 s).getD 0 + 1)),
          buffer_write (freshContext (exampleRowDb s) 0)
            [exampleMutation (toString (i64Wrap ((parseI64 s).getD 0 + 1)))])) ∧
    (∀ s : String, parseI64 s = none →
      exampleBody (freshContext (exampleRowDb s) 0) =
        .ok ("1", buffer_write (freshContext (exampleRowDb s) 0) [exampleMutation "1"])) ∧
    exampleBody (freshContext [] 0) =
      .ok ("1", buffer_write (freshContext [] 0) [exampleMutation "1"]) := by
  have h1 : ∀ s : String,
      exampleBody (freshContext (exampleRowDb s) 0) =
        .ok (toString (i64Wrap ((parseI64 s).getD 0 + 1)),
          buffer_write (freshContext (exampleRowDb s) 0)
            [exampleMutation (toString (i64Wrap ((parseI64 s).getD 0 + 1)))]) :=
    fun s => rfl
  refine ⟨h1, ?_, rfl⟩
  intro s hs
  rw [h1 s, hs]
  rfl

/-- Witness for C10: "abc" does not parse as an i64 and the body buffers the
string "1" for it; at the stored value i64::MAX the body buffers the wrapped
i64 sum, matching the release-mode overflow of the source's addition. -/
theorem c10_witness :
    parseI64 "abc" = none ∧
    exampleBody (freshContext (exampleRowDb "abc") 0) =
      .ok ("1", buffer_write (freshContext (exampleRowDb "abc") 0) [exampleMutation "1"]) ∧
    exampleBody (freshContext (exampleRowDb "9223372036854775807") 0) =
      .ok ("-9223372036854775808",
        buffer_write (freshContext (exampleRowDb "9223372036854775807") 0)
          [exampleMutation "-9223372036854775808"]) :=
  ⟨rfl, c10_example_arithmetic_total.2.1 "abc" rfl,
    c10_example_arithmetic_total.1 "9223372036854775807"⟩

end Spanner
